import Mathlib

/-!
Verification of the webrtcperf streaming statistics aggregation and
alert-rule evaluation engine (`src/utils.ts`, `src/session.ts`).

The TypeScript source is shallowly embedded: JavaScript finite numbers are
modelled as rationals (`Rat`); millisecond timestamps as integers (`Int`);
JavaScript objects and `Map`s as insertion-ordered association lists;
rejected promises / thrown exceptions as `Except` values.  `NaN`/`Infinity`
inputs are outside the model (the collector filters them with `isFinite`
before every push).  Logging, console formatting and network/disk I/O are
not modelled; the data they would consume is exposed in return values.
-/

attribute [local semireducible] Rat.add Rat.mul Rat.inv Rat.sub

namespace Webrtcperf

/-- JavaScript `Math.round`: round half toward positive infinity,
`⌊q + 1/2⌋` (`Rat.floor` computes `Int.floor`, `Rat.floor_def'`). -/
def jsRound (q : Rat) : Int := (q + 1 / 2).floor

/-- The `clampMinMax` from `utils.ts`: `Math.max(Math.min(value, max), min)`. -/
def clampMinMax (value mn mx : Int) : Int := max (min value mx) mn

/-! ## Scheduler (`utils.ts`, class `Scheduler`)

The scheduler state mirrors the mutable fields of the `Scheduler` class.
`setTimeout` timers are modelled by the list `pendingTimers` of identifiers
of timers that have been scheduled and neither fired nor cancelled;
`statsTimeoutId` holds the identifier stored in the class field of the same
name, and `nextTimerId` generates fresh identifiers. -/

structure SchedulerState where
  running : Bool
  last : Int
  errorSum : Int
  statsTimeoutId : Option Nat
  pendingTimers : List Nat
  nextTimerId : Nat
  deriving DecidableEq, Repr

namespace Scheduler

/-- The `Scheduler.scheduleNext` (`utils.ts`): on each tick, if `last` is set
(non-zero, JavaScript truthiness), accumulate the clamped drift into
`errorSum`; set `last := now`; schedule the next timer (`setTimeout`),
storing its id in `statsTimeoutId`. -/
def scheduleNext (interval now : Int) (s : SchedulerState) : SchedulerState :=
  if s.running = false then s
  else
    let s :=
      if s.last ≠ 0 then
        { s with errorSum := s.errorSum + clampMinMax (now - s.last - interval) (-interval) interval }
      else s
    { s with
      last := now
      statsTimeoutId := some s.nextTimerId
      pendingTimers := s.nextTimerId :: s.pendingTimers
      nextTimerId := s.nextTimerId + 1 }

/-- The `Scheduler.start`: set `running` and call `scheduleNext`. -/
def start (interval now : Int) (s : SchedulerState) : SchedulerState :=
  scheduleNext interval now { s with running := true }

/-- The `Scheduler.stop`: clear `running`; if `statsTimeoutId` is set, cancel
that timer (`clearTimeout`). -/
def stop (s : SchedulerState) : SchedulerState :=
  let s := { s with running := false }
  match s.statsTimeoutId with
  | some t => { s with pendingTimers := s.pendingTimers.erase t }
  | none => s

end Scheduler

end Webrtcperf

namespace Webrtcperf

/-- The scheduler state reached by `start` at time 1 followed by ticks at
times 3001 and 6001 with interval 1000 ms. -/
def schedulerDriftRun : SchedulerState :=
  Scheduler.scheduleNext 1000 6001
    (Scheduler.scheduleNext 1000 3001
      (Scheduler.start 1000 1
        { running := false, last := 0, errorSum := 0, statsTimeoutId := none,
          pendingTimers := [], nextTimerId := 0 }))

end Webrtcperf

namespace Webrtcperf

/-! ## CSV stats writer (`stats.ts`, `StatsWriter` and `formatStatsColumns`)

The written file is modelled as the list of its CSV lines. -/

structure StatsWriter where
  fname : String
  columns : List String
  headerWritten : Bool
  fileLines : List String
  deriving DecidableEq, Repr

namespace StatsWriter

/-- The header line written on first push: `['datetime', ...columns].join(',')`. -/
def headerLine (columns : List String) : String :=
  String.intercalate "," ("datetime" :: columns)

/-- A data row: `[Date.now(), ...dataColumns].join(',')`. -/
def dataLine (now : Int) (dataColumns : List String) : String :=
  String.intercalate "," (toString now :: dataColumns)

/-- The `StatsWriter.push`: write the header (creating the file) if it was not
written yet, then append the data row. -/
def push (w : StatsWriter) (now : Int) (dataColumns : List String) : StatsWriter :=
  let w :=
    if w.headerWritten = false then
      { w with fileLines := [headerLine w.columns], headerWritten := true }
    else w
  { w with fileLines := w.fileLines ++ [dataLine now dataColumns] }

/-- A sequence of `push` calls on the same writer. -/
def pushAll (w : StatsWriter) (rows : List (Int × List String)) : StatsWriter :=
  rows.foldl (fun w r => w.push r.1 r.2) w

end StatsWriter

/-- The `formatStatsColumns` (`stats.ts`): the per-metric CSV column names. -/
def formatStatsColumns (column : String) : List String :=
  [column ++ "_length", column ++ "_sum", column ++ "_mean", column ++ "_stdev",
    column ++ "_5p", column ++ "_95p", column ++ "_min", column ++ "_max"]

/-- The CSV header columns built in `Stats.run`:
`statsNames.reduce((v, name) => v.concat(formatStatsColumns(name)), [])`. -/
def statsWriterHeaders (statsNames : List String) : List String :=
  statsNames.foldl (fun v name => v ++ formatStatsColumns name) []

/-! ## Association lists

JavaScript objects and `Map`s preserve insertion order: assignment to an
existing key keeps its position, assignment to a new key appends it. -/

/-- JavaScript property/`Map` assignment `m[k] = v`. -/
def setA {α : Type} : List (String × α) → String → α → List (String × α)
  | [], k, v => [(k, v)]
  | (k', v') :: rest, k, v =>
    if k' = k then (k, v) :: rest else (k', v') :: setA rest k v

/-- JavaScript property/`Map` lookup `m[k]` (`undefined` when absent). -/
def lookupA {α : Type} : List (String × α) → String → Option α
  | [], _ => none
  | (k', v') :: rest, k => if k' = k then some v' else lookupA rest k

/-! ## Streaming summary (`fast-stats` accumulator)

`fast-stats` is an external npm dependency; the engine only relies on it
storing the pushed samples (its `data` array) and deriving statistics from
them.  The accumulator is modelled by that sample list. -/

structure FastStats where
  data : List Rat
  deriving DecidableEq, Repr

namespace FastStats

/-- A fresh `new FastStats()`. -/
def empty : FastStats := ⟨[]⟩

/-- The `stat.push(value)` with a single numeric value. -/
def push (s : FastStats) (v : Rat) : FastStats := ⟨s.data ++ [v]⟩

/-- The `stat.push(values)` with an array argument. -/
def pushList (s : FastStats) (vs : List Rat) : FastStats := ⟨s.data ++ vs⟩

/-- The `stat.reset()`. -/
def reset (_ : FastStats) : FastStats := ⟨[]⟩

/-- The `stat.length`. -/
def length (s : FastStats) : Nat := s.data.length

/-- The `stat.sum`. -/
def sum (s : FastStats) : Rat := s.data.sum

/-- Insert a value into an ascending-sorted list. -/
def insertSorted (v : Rat) : List Rat → List Rat
  | [] => [v]
  | x :: xs => if v ≤ x then v :: x :: xs else x :: insertSorted v xs

/-- The pushed samples in ascending order. -/
def sortedData (s : FastStats) : List Rat := s.data.foldr insertSorted []

/-- Modelled from the spec: the `fast-stats` percentile implementation is
not part of this repository; §4.1 specifies it as rank
`r = p/100 * (n-1)` over the ascending sorted samples with linear
interpolation between the values at `floor(r)` and `ceil(r)`, and §3
requires an empty summary to report 0 rather than `NaN`. -/
def percentile (s : FastStats) (p : Rat) : Rat :=
  match s.sortedData with
  | [] => 0
  | sorted =>
    let n := sorted.length
    let r : Rat := p / 100 * ((n : Rat) - 1)
    let lo := r.floor.toNat
    let hi := r.ceil.toNat
    let vlo := sorted.getD lo 0
    let vhi := sorted.getD hi 0
    vlo + (r - (lo : Rat)) * (vhi - vlo)

/-- The `s.min || 0` as read by `formatStats` (`null` coalesced to 0 when
empty). -/
def minOrZero (s : FastStats) : Rat :=
  match s.data with
  | [] => 0
  | v :: rest => rest.foldl min v

/-- The `s.max || 0` as read by `formatStats`. -/
def maxOrZero (s : FastStats) : Rat :=
  match s.data with
  | [] => 0
  | v :: rest => rest.foldl max v

end FastStats

/-- The `calculateFailAmountPercentile` (`stats.ts`):
`Math.round(stat.percentile(percentile))`. -/
def calculateFailAmountPercentile (stat : FastStats) (percentile : Rat := 95) : Int :=
  jsRound (stat.percentile percentile)

/-- The `calculateFailAmount` (`stats.ts`): normalized 0–100 severity; when the
threshold is non-zero (JavaScript truthiness) the relative distance to it,
else the absolute value, both capped at 1. -/
def calculateFailAmount (checkValue ruleValue : Rat) : Rat :=
  if ruleValue ≠ 0 then 100 * min 1 (|checkValue - ruleValue| / ruleValue)
  else 100 * min 1 |checkValue|

/-! ## Stats data model (`stats.ts`) -/

/-- The check-keys an alert rule may select (interface `AlertRuleKey`:
`length`, `sum`, `p95`, `p5`, `min`, `max`).  The source's `StatsData` also
carries `mean` and `stddev`, but `AlertRuleKey` cannot select them (and
`stddev` would need real square roots), so the embedded `formatStats` is
restricted to the selectable statistics. -/
inductive RuleKey
  | length | sum | p95 | p5 | min | max
  deriving DecidableEq, Repr

/-- The object-key string of a check-key (used in rule descriptions). -/
def RuleKey.keyString : RuleKey → String
  | .length => "length" | .sum => "sum" | .p95 => "p95"
  | .p5 => "p5" | .min => "min" | .max => "max"

/-- The `StatsData` (`stats.ts`), restricted to the alert-selectable fields. -/
structure StatsData where
  length : Rat
  sum : Rat
  p5 : Rat
  p95 : Rat
  min : Rat
  max : Rat
  deriving DecidableEq, Repr

/-- The `value[ruleKey]` on a `StatsData` record. -/
def StatsData.get (v : StatsData) : RuleKey → Rat
  | .length => v.length | .sum => v.sum | .p95 => v.p95
  | .p5 => v.p5 | .min => v.min | .max => v.max

/-- The `formatStats` (`stats.ts`, object form): each statistic coalesced with
`|| 0`, which the model realises by reporting 0 on empty data. -/
def formatStats (s : FastStats) : StatsData :=
  { length := (s.length : Rat), sum := s.sum, p5 := s.percentile 5,
    p95 := s.percentile 95, min := s.minOrZero, max := s.maxOrZero }

/-- Modelled from the spec: the `rtcstats` module (`parseRtStatKey` and
the metric-name enums) is not under `src/`.  §3 gives the label set
`{host, codec, participantName, trackId, pageIndex}` attached to each
sample and the glossary defines the composite key as the
(participant, track) pair; the embedding represents a labelled map key
directly by its parsed label record, so `parseRtStatKey` is the
projection (identity) on that record. -/
structure RtcStatKey where
  hostName : String
  participantName : String
  trackId : String
  deriving DecidableEq, Repr

/-- Modelled from the spec: see `RtcStatKey`. -/
def parseRtStatKey (key : RtcStatKey) : RtcStatKey := key

/-- A value inside a labelled per-metric map: numeric, or a categorical
codec string. -/
inductive LabelValue
  | num (v : Rat)
  | str (s : String)
  deriving DecidableEq, Repr

/-- One entry of a session's per-tick metric map: a plain (finite) number,
a label-keyed map, or `undefined`. -/
inductive SessionStatValue
  | undef
  | num (v : Rat)
  | labeled (entries : List (RtcStatKey × LabelValue))
  deriving DecidableEq, Repr

/-- The per-tick metric map returned by `session.updateStats()`. -/
abbrev SessionStats := List (String × SessionStatValue)

/-- The `CollectedStats` (`stats.ts`). -/
structure CollectedStats where
  all : FastStats
  byHost : List (String × FastStats)
  byCodec : List (String × FastStats)
  byParticipantAndTrack : List (String × Rat)
  deriving DecidableEq, Repr

/-- A fresh `CollectedStats` as built by `initCollectedStats`. -/
def CollectedStats.empty : CollectedStats :=
  { all := FastStats.empty, byHost := [], byCodec := [], byParticipantAndTrack := [] }

/-- The `CollectedStatsRaw` (`stats.ts`): the per-metric raw sample arrays
pushed from a remote collector. -/
structure CollectedStatsRaw where
  all : List Rat
  byHost : List (String × List Rat)
  byCodec : List (String × List Rat)
  byParticipantAndTrack : List (String × Rat)
  deriving DecidableEq, Repr

/-- The `collectedStatsConfig` (`stats.ts`).  The `url` field (a
credential-stripped display URL computed with `hideAuth`) is not modelled;
no claim concerns it. -/
structure CollectedStatsConfig where
  pages : Nat
  startTime : Int
  deriving DecidableEq, Repr

/-- The external-stats entry config (`{url, pages}`); `url` unmodelled. -/
structure ExternalConfig where
  pages : Nat
  deriving DecidableEq, Repr

/-- One entry of `externalCollectedStats`. -/
structure ExternalStatsEntry where
  addedTime : Int
  externalStats : List (String × CollectedStatsRaw)
  config : ExternalConfig
  deriving DecidableEq, Repr

deriving instance DecidableEq for Except

/-- The slice of a `Session` consumed by `Stats.collectStats`: its page
count (`session.pages.size`) and the result of awaiting
`session.updateStats()` — a metric map, or a rejection carrying an error
message.  The session `url`/`urlQuery` feed only the unmodelled display
URL. -/
structure Session where
  pages : Nat
  updateStats : Except String SessionStats
  deriving DecidableEq, Repr

/-- The `enabledForSession` (`utils.ts`) restricted to boolean configuration
values (the source also accepts string range and index-list expressions,
which no claim exercises). -/
def enabledForSession (_index : Nat) (value : Bool) : Bool := value

/-- The `AlertRuleValue` (`stats.ts`): comparison operators, activation window
and exclusion predicates; an absent operator is `undefined`.  Field names
drop the source's `$` prefix. -/
structure AlertRuleValue where
  eq : Option Rat := none
  gt : Option Rat := none
  lt : Option Rat := none
  gte : Option Rat := none
  lte : Option Rat := none
  after : Option Rat := none
  before : Option Rat := none
  skip_lt : Option Rat := none
  skip_lte : Option Rat := none
  skip_gt : Option Rat := none
  skip_gte : Option Rat := none
  deriving DecidableEq, Repr

/-- A rule check value: `AlertRuleValue | AlertRuleValue[]`, normalized to
an array by `checkAlertRules`. -/
inductive RuleValueSpec
  | one (v : AlertRuleValue)
  | many (vs : List AlertRuleValue)
  deriving DecidableEq, Repr

/-- The `if (!Array.isArray(ruleValues)) ruleValues = [ruleValues]`
normalization. -/
def RuleValueSpec.normalize : RuleValueSpec → List AlertRuleValue
  | .one v => [v]
  | .many vs => vs

/-- One own property of an `AlertRule` object, in insertion order
(`Object.entries` iteration): the `tags` array, the optional
`failPercentile`, or a check key. -/
inductive AlertRuleEntry
  | tags (ts : List String)
  | failPercentile (p : Rat)
  | check (key : RuleKey) (vs : RuleValueSpec)
  deriving DecidableEq, Repr

/-- An `AlertRule` object as iterated by `checkAlertRules`. -/
abbrev AlertRule := List AlertRuleEntry

/-- One `alertRulesReport` record. -/
structure ReportValue where
  totalFails : Nat
  totalFailsTime : Rat
  totalFailsTimePerc : Int
  lastFailed : Int
  valueStats : FastStats
  failAmountStats : FastStats
  failAmountPercentile : Int
  deriving DecidableEq, Repr

/-- The freshly created report record of `updateRulesReport`. -/
def ReportValue.init : ReportValue :=
  { totalFails := 0, totalFailsTime := 0, totalFailsTimePerc := 0, lastFailed := 0,
    valueStats := FastStats.empty, failAmountStats := FastStats.empty,
    failAmountPercentile := 0 }

/-- The `alertRulesReport`: metric name → rule description → report record. -/
abbrev ReportMap := List (String × List (String × ReportValue))

/-- Look up the report record of a (metric, rule description) pair. -/
def lookupRuleReport (report : ReportMap) (key ruleDesc : String) : Option ReportValue :=
  match lookupA report key with
  | none => none
  | some inner => lookupA inner ruleDesc

/-- The (metric, rule) report record as read by `updateRulesReport` before
updating (a fresh record when absent). -/
def reportValueBefore (report : ReportMap) (key ruleDesc : String) : ReportValue :=
  (lookupA ((lookupA report key).getD []) ruleDesc).getD ReportValue.init

/-- The embedded state of a `Stats` instance: the `readonly` configuration
fields consumed by the collector and alert engine, and the mutable
collections it owns. -/
structure StatsState where
  statsInterval : Int
  rtcStatsTimeout : Int
  startTimestamp : Int
  statsNames : List String
  enableDetailedStats : Bool
  alertRules : Option (List (String × AlertRule))
  alertRulesFailPercentile : Rat
  running : Bool
  sessions : List (Nat × Session)
  collectedStats : List (String × CollectedStats)
  collectedStatsConfig : CollectedStatsConfig
  externalCollectedStats : List (String × ExternalStatsEntry)
  alertRulesReport : ReportMap
  deriving DecidableEq, Repr

/-- The `initCollectedStats`: one fresh `CollectedStats` per catalog name. -/
def initCollectedStats (statsNames : List String) : List (String × CollectedStats) :=
  statsNames.foldl (fun prev name => setA prev name CollectedStats.empty) []

/-- The `Stats` constructor restricted to the embedded fields:
`this.statsInterval = statsInterval || 10` (`undefined`, modelled `none`,
and the falsy 0 both default to 10);
`this.rtcStatsTimeout = Math.max(rtcStatsTimeout, this.statsInterval)`;
`this.startTimestamp = startTimestamp || Date.now()` with `nowCtor` the
constructor-time clock.  The remaining constructor parameters configure
exporters and transports outside the model. -/
def StatsConstruct (statsInterval : Option Int) (rtcStatsTimeout : Int)
    (startTimestamp : Option Int) (nowCtor : Int) (statsNames : List String)
    (enableDetailedStats : Bool) (alertRules : Option (List (String × AlertRule)))
    (alertRulesFailPercentile : Rat) : StatsState :=
  let si : Int :=
    match statsInterval with
    | none => 10
    | some v => if v = 0 then 10 else v
  { statsInterval := si
    rtcStatsTimeout := max rtcStatsTimeout si
    startTimestamp :=
      match startTimestamp with
      | none => nowCtor
      | some t => if t = 0 then nowCtor else t
    statsNames := statsNames
    enableDetailedStats := enableDetailedStats
    alertRules := alertRules
    alertRulesFailPercentile := alertRulesFailPercentile
    running := false
    sessions := []
    collectedStats := initCollectedStats statsNames
    collectedStatsConfig := { pages := 0, startTime := 0 }
    externalCollectedStats := []
    alertRulesReport := [] }

/-! ## The collection tick (`Stats.collectStats`) -/

/-- The reset step at the top of a non-skipped tick: reset every metric's
`all` summary and each existing `byHost`/`byCodec` summary (their keys
survive, emptied), and replace `byParticipantAndTrack` by a fresh empty
object. -/
def resetCollectedStats (cs : List (String × CollectedStats)) : List (String × CollectedStats) :=
  cs.map (fun p => (p.1,
    { all := p.2.all.reset
      byHost := p.2.byHost.map (fun q => (q.1, q.2.reset))
      byCodec := p.2.byCodec.map (fun q => (q.1, q.2.reset))
      byParticipantAndTrack := [] }))

/-- Process one entry of a labelled metric map: push the value into `all`
and the per-host summary, record the participant/track point value when
detailed stats are enabled for the session, or count a categorical codec
string as 1 in `all` and the per-codec summary. -/
def processLabelEntry (eds : Bool) (sessionId : Nat) (stats : CollectedStats)
    (key : RtcStatKey) (value : LabelValue) : CollectedStats :=
  match value with
  | .num v =>
    let stats := { stats with all := stats.all.push v }
    let parsed := parseRtStatKey key
    let hostStats := (lookupA stats.byHost parsed.hostName).getD FastStats.empty
    let stats := { stats with byHost := setA stats.byHost parsed.hostName (hostStats.push v) }
    if enabledForSession sessionId eds = true ∧ parsed.participantName ≠ "" then
      let pt := setA stats.byParticipantAndTrack (parsed.participantName ++ ":" ++ parsed.trackId) v
      { stats with byParticipantAndTrack := pt }
    else stats
  | .str s =>
    let stats := { stats with all := stats.all.push 1 }
    let codecStats := (lookupA stats.byCodec s).getD FastStats.empty
    { stats with byCodec := setA stats.byCodec s (codecStats.push 1) }

/-- Process one metric entry of a session's map (the body of the
per-metric `try`).  When the name is not in the catalog the JS
`collectedStats[name].all` access throws before any mutation and the
per-metric `catch` logs it, leaving the state unchanged. -/
def processMetric (eds : Bool) (sessionId : Nat)
    (cs : List (String × CollectedStats)) (name : String) :
    SessionStatValue → List (String × CollectedStats)
  | .undef => cs
  | .num v =>
    match lookupA cs name with
    | none => cs
    | some stats => setA cs name { stats with all := stats.all.push v }
  | .labeled entries =>
    match lookupA cs name with
    | none => cs
    | some stats =>
      setA cs name (entries.foldl
        (fun st (p : RtcStatKey × LabelValue) => processLabelEntry eds sessionId st p.1 p.2)
        stats)

/-- The `for (const [name, obj] of Object.entries(sessionStats))` loop;
`Except.error` models the bare `return` taken when a metric value is
`undefined` (the `isFinite` guard needs no model: every embedded number is
finite). -/
def entriesLoop (eds : Bool) (sessionId : Nat) :
    List (String × CollectedStats) → SessionStats →
    Except (List (String × CollectedStats)) (List (String × CollectedStats))
  | cs, [] => .ok cs
  | cs, (name, obj) :: rest =>
    match obj with
    | .undef => .error cs
    | o => entriesLoop eds sessionId (processMetric eds sessionId cs name o) rest

/-- Outcome of the per-session loop. -/
inductive SessionLoopResult
  | ok (cs : List (String × CollectedStats)) (cfg : CollectedStatsConfig)
  | undefAbort (cs : List (String × CollectedStats)) (cfg : CollectedStatsConfig)
  | errored (cs : List (String × CollectedStats)) (cfg : CollectedStatsConfig) (e : String)
  deriving DecidableEq, Repr

/-- The per-session loop of `collectStats`: accumulate the session's page
count into the tick config, then `await session.updateStats()` — a
rejection propagates out of `collectStats` (`errored`) — then fold the
returned metric map (`undefAbort` on an `undefined` value). -/
def sessionLoop (eds : Bool) :
    List (String × CollectedStats) → CollectedStatsConfig → List (Nat × Session) →
    SessionLoopResult
  | cs, cfg, [] => .ok cs cfg
  | cs, cfg, (sessionId, session) :: rest =>
    let cfg := { cfg with pages := cfg.pages + session.pages }
    match session.updateStats with
    | .error e => .errored cs cfg e
    | .ok sessionStats =>
      match entriesLoop eds sessionId cs sessionStats with
      | .error cs' => .undefAbort cs' cfg
      | .ok cs' => sessionLoop eds cs' cfg rest

/-- Merge one external entry's raw arrays for one catalog metric
(array-pushes into `all` and the get-or-created per-host/per-codec
summaries; point overwrites of participant/track values). -/
def mergeExternalMetric (cs : List (String × CollectedStats))
    (externalStats : List (String × CollectedStatsRaw)) (name : String) :
    List (String × CollectedStats) :=
  match lookupA externalStats name with
  | none => cs
  | some raw =>
    match lookupA cs name with
    | none => cs
    | some stats =>
      let stats := { stats with all := stats.all.pushList raw.all }
      let stats := raw.byHost.foldl (fun stats (p : String × List Rat) =>
        let s := ((lookupA stats.byHost p.1).getD FastStats.empty).pushList p.2
        { stats with byHost := setA stats.byHost p.1 s }) stats
      let stats := raw.byCodec.foldl (fun stats (p : String × List Rat) =>
        let s := ((lookupA stats.byCodec p.1).getD FastStats.empty).pushList p.2
        { stats with byCodec := setA stats.byCodec p.1 s }) stats
      let stats := raw.byParticipantAndTrack.foldl (fun stats (p : String × Rat) =>
        { stats with byParticipantAndTrack := setA stats.byParticipantAndTrack p.1 p.2 }) stats
      setA cs name stats

/-- The external-stats loop of `collectStats`: evict entries older than
`rtcStatsTimeout` seconds, fold the config pages and the raw
distributions of surviving entries into the tick's stats.  Returns the
updated stats, config, and the surviving entries (in order). -/
def externalLoop (statsNames : List String) (rtcStatsTimeout now : Int) :
    List (String × CollectedStats) → CollectedStatsConfig →
    List (String × ExternalStatsEntry) →
    List (String × CollectedStats) × CollectedStatsConfig × List (String × ExternalStatsEntry)
  | cs, cfg, [] => (cs, cfg, [])
  | cs, cfg, (id, data) :: rest =>
    if now - data.addedTime > rtcStatsTimeout * 1000 then
      externalLoop statsNames rtcStatsTimeout now cs cfg rest
    else
      let cfg :=
        if data.config.pages ≠ 0 then { cfg with pages := cfg.pages + data.config.pages }
        else cfg
      let cs := statsNames.foldl (fun cs name => mergeExternalMetric cs data.externalStats name) cs
      let r := externalLoop statsNames rtcStatsTimeout now cs cfg rest
      (r.1, r.2.1, (id, data) :: r.2.2)

/-! ## The alert rule engine (`Stats.checkAlertRules`,
`Stats.updateRulesReport`) -/

/-- The `getAlertRuleDesc` (`stats.ts`): the human-readable rule description
used as the report key. -/
def getAlertRuleDesc (ruleKey : RuleKey) (rv : AlertRuleValue) : String :=
  let descs : List String :=
    (match rv.eq with | some v => ["= " ++ toString v] | none => []) ++
    (match rv.gt with | some v => ["> " ++ toString v] | none => []) ++
    (match rv.gte with | some v => [">= " ++ toString v] | none => []) ++
    (match rv.lt with | some v => ["< " ++ toString v] | none => []) ++
    (match rv.lte with | some v => ["<= " ++ toString v] | none => [])
  let d := ruleKey.keyString ++ " " ++ String.intercalate " and " descs
  let d := match rv.after with | some a => d ++ " after " ++ toString a ++ "s" | none => d
  match rv.before with | some b => d ++ " before " ++ toString b ++ "s" | none => d

/-- The `updateRulesReport` (`stats.ts`) acting on the report map: create the
(metric, rule) record if missing; on failure increment `totalFails`, add
the continuity gap `(now - lastFailed)/1000` when the previous evaluation
also failed, and stamp `lastFailed := now`; on a pass reset
`lastFailed := 0`.  Then recompute the fail-time percentage against the
`elapsedSeconds` argument and push the check value / fail amount into the
report distributions. -/
def updateRulesReport (report : ReportMap) (key : String) (checkValue : Rat)
    (ruleDesc : String) (failed : Bool) (failAmount : Rat) (now : Int)
    (elapsedSeconds : Rat) (failPercentile : Rat) : ReportMap :=
  let inner := (lookupA report key).getD []
  let rv := (lookupA inner ruleDesc).getD ReportValue.init
  let rv :=
    if failed then
      let rv := { rv with totalFails := rv.totalFails + 1 }
      let rv :=
        if rv.lastFailed ≠ 0 then
          let t := rv.totalFailsTime + ((now - rv.lastFailed : Int) : Rat) / 1000
          { rv with totalFailsTime := t }
        else rv
      { rv with lastFailed := now }
    else { rv with lastFailed := 0 }
  let rv := { rv with totalFailsTimePerc := jsRound (100 * rv.totalFailsTime / elapsedSeconds) }
  let rv := { rv with valueStats := rv.valueStats.push checkValue }
  let rv := { rv with failAmountStats := rv.failAmountStats.push failAmount }
  let fap := calculateFailAmountPercentile rv.failAmountStats failPercentile
  let rv := { rv with failAmountPercentile := fap }
  setA report key (setA inner ruleDesc rv)

/-- The `$skip_*` exclusion test of `checkAlertRules`. -/
def skipRuleValue (rv : AlertRuleValue) (checkValue : Rat) : Bool :=
  (match rv.skip_lt with | some t => decide (checkValue < t) | none => false) ||
  (match rv.skip_lte with | some t => decide (checkValue ≤ t) | none => false) ||
  (match rv.skip_gt with | some t => decide (checkValue > t) | none => false) ||
  (match rv.skip_gte with | some t => decide (checkValue ≥ t) | none => false)

/-- The activation-window test: skip when `elapsedSeconds < $after` or
`elapsedSeconds > $before`. -/
def windowMiss (rv : AlertRuleValue) (elapsedSeconds : Rat) : Bool :=
  (match rv.after with | some a => decide (elapsedSeconds < a) | none => false) ||
  (match rv.before with | some b => decide (elapsedSeconds > b) | none => false)

/-- The pass/fail decision for one rule value: `$eq` alone requires
equality; otherwise an optional upper bound (`$lt` else `$lte`) and — only
when it did not already fail — an optional lower bound (`$gt` else
`$gte`).  Returns the verdict and the fail amount computed from the
violated threshold. -/
def evalRuleValue (rv : AlertRuleValue) (checkValue : Rat) : Bool × Rat :=
  match rv.eq with
  | some e =>
    if checkValue ≠ e then (true, calculateFailAmount checkValue e) else (false, 0)
  | none =>
    let fstep : Bool × Rat :=
      match rv.lt with
      | some t => if checkValue ≥ t then (true, calculateFailAmount checkValue t) else (false, 0)
      | none =>
        match rv.lte with
        | some t => if checkValue > t then (true, calculateFailAmount checkValue t) else (false, 0)
        | none => (false, 0)
    if fstep.1 then fstep
    else
      match rv.gt with
      | some t => if checkValue ≤ t then (true, calculateFailAmount checkValue t) else fstep
      | none =>
        match rv.gte with
        | some t => if checkValue < t then (true, calculateFailAmount checkValue t) else fstep
        | none => fstep

/-- The inner rule-value loop of `checkAlertRules`, threading the report
map and the `ruleElapsedSeconds` accumulator, which is decreased by the
`$after` offset of every rule value that passes the window test.  The
`isFinite(checkValue)` guard needs no model: every embedded number is
finite. -/
def runRuleValues (now : Int) (elapsedSeconds : Rat) (key : String)
    (value : StatsData) (ruleKey : RuleKey) (failPercentile : Rat) :
    ReportMap × Rat → List AlertRuleValue → ReportMap × Rat
  | acc, [] => acc
  | (report, ruleElapsedSeconds), rv :: rest =>
    if windowMiss rv elapsedSeconds then
      runRuleValues now elapsedSeconds key value ruleKey failPercentile
        (report, ruleElapsedSeconds) rest
    else
      let ruleElapsedSeconds :=
        match rv.after with
        | some a => ruleElapsedSeconds - a
        | none => ruleElapsedSeconds
      let checkValue := value.get ruleKey
      let ruleDesc := getAlertRuleDesc ruleKey rv
      if skipRuleValue rv checkValue then
        runRuleValues now elapsedSeconds key value ruleKey failPercentile
          (report, ruleElapsedSeconds) rest
      else
        let fa := evalRuleValue rv checkValue
        let report := updateRulesReport report key checkValue ruleDesc fa.1 fa.2 now
          ruleElapsedSeconds failPercentile
        runRuleValues now elapsedSeconds key value ruleKey failPercentile
          (report, ruleElapsedSeconds) rest

/-- The loop over a rule object's entries in iteration order: `tags` is
skipped, `failPercentile` replaces the percentile used from then on, each
check key evaluates its (normalized) rule values starting from a fresh
`ruleElapsedSeconds = elapsedSeconds`. -/
def runRuleEntries (now : Int) (elapsedSeconds : Rat) (key : String) (value : StatsData) :
    ReportMap × Rat → AlertRule → ReportMap × Rat
  | acc, [] => acc
  | (report, failPercentile), entry :: rest =>
    match entry with
    | .tags _ => runRuleEntries now elapsedSeconds key value (report, failPercentile) rest
    | .failPercentile p => runRuleEntries now elapsedSeconds key value (report, p) rest
    | .check ruleKey vs =>
      let report := (runRuleValues now elapsedSeconds key value ruleKey failPercentile
        (report, elapsedSeconds) vs.normalize).1
      runRuleEntries now elapsedSeconds key value (report, failPercentile) rest

/-- The `Stats.checkAlertRules` acting on the report map: compute
`elapsedSeconds` since engine start; for each rule whose metric exists in
`collectedStats`, evaluate its checks against the formatted distribution
of that metric's `all` summary. -/
def runAlertRules (rules : List (String × AlertRule))
    (collectedStats : List (String × CollectedStats)) (startTimestamp : Int)
    (engineFailPercentile : Rat) (now : Int) (report : ReportMap) : ReportMap :=
  let elapsedSeconds : Rat := ((now - startTimestamp : Int) : Rat) / 1000
  rules.foldl (fun report kr =>
    match lookupA collectedStats kr.1 with
    | none => report
    | some collected =>
      (runRuleEntries now elapsedSeconds kr.1 (formatStats collected.all)
        (report, engineFailPercentile) kr.2).1) report

/-- The `Stats.checkAlertRules` on the instance state: a no-op without
configured rules or when not running.  The `Date.now()` it reads is
modelled by the `now` argument. -/
def checkAlertRules (st : StatsState) (now : Int) : StatsState :=
  match st.alertRules with
  | none => st
  | some rules =>
    if st.running = false then st
    else
      let report := runAlertRules rules st.collectedStats st.startTimestamp
        st.alertRulesFailPercentile now st.alertRulesReport
      { st with alertRulesReport := report }

/-- The observable outcome of one `collectStats` invocation.  `completed`
carries the snapshot emitted on the `stats` event and consumed by the
console, CSV, detailed and Prometheus exporters; `threw` models an
exception propagating out of `collectStats` into the Scheduler's catch;
the other constructors are the three early returns. -/
inductive TickResult
  | notRunning
  | skipped
  | undefinedAbort
  | threw (e : String)
  | completed (emitted : List (String × CollectedStats))
  deriving DecidableEq, Repr

/-- The `Stats.collectStats`: the whole collection tick. -/
def collectStats (st : StatsState) (now : Int) : StatsState × TickResult :=
  if st.running = false then (st, .notRunning)
  else if st.sessions.isEmpty && st.externalCollectedStats.isEmpty then (st, .skipped)
  else
    let cfg : CollectedStatsConfig := { pages := 0, startTime := st.startTimestamp }
    let cs := resetCollectedStats st.collectedStats
    match sessionLoop st.enableDetailedStats cs cfg st.sessions with
    | .errored cs' cfg' e =>
      ({ st with collectedStats := cs', collectedStatsConfig := cfg' }, .threw e)
    | .undefAbort cs' cfg' =>
      ({ st with collectedStats := cs', collectedStatsConfig := cfg' }, .undefinedAbort)
    | .ok cs' cfg' =>
      let r := externalLoop st.statsNames st.rtcStatsTimeout now cs' cfg'
        st.externalCollectedStats
      let st' := { st with collectedStats := r.1, collectedStatsConfig := r.2.1, externalCollectedStats := r.2.2 }
      let st'' := checkAlertRules st' now
      (st'', .completed r.1)

/-! ## Predicates and concrete states used by the theorems -/

/-- A session pull that resolves and whose metric map contains no
`undefined` value, so the session loop passes through it. -/
def cleanPull (s : Session) : Bool :=
  match s.updateStats with
  | .error _ => false
  | .ok ss => ss.all (fun p => decide (p.2 ≠ SessionStatValue.undef))

/-- The cumulative-report order: every (metric, rule) record present in
the first map is still present in the second with at least as many
recorded failures. -/
def ReportGrows (m m' : ReportMap) : Prop :=
  ∀ key desc r, lookupRuleReport m key desc = some r →
    ∃ r', lookupRuleReport m' key desc = some r' ∧ r.totalFails ≤ r'.totalFails

/-- A running one-metric (`cpu`) instance with no sessions, no external
entries, no alert rules. -/
def exampleBase : StatsState :=
  { statsInterval := 10, rtcStatsTimeout := 10, startTimestamp := 0,
    statsNames := ["cpu"], enableDetailedStats := false, alertRules := none,
    alertRulesFailPercentile := 95, running := true, sessions := [],
    collectedStats := [("cpu", CollectedStats.empty)],
    collectedStatsConfig := { pages := 0, startTime := 0 },
    externalCollectedStats := [], alertRulesReport := [] }

/-- A running state with no sessions, no external entries, and a stale
`cpu` distribution left over from an earlier tick. -/
def staleEmptyTickState : StatsState :=
  { exampleBase with
    collectedStats := [("cpu", { CollectedStats.empty with all := ⟨[7]⟩ })] }

/-- A session whose metric pull resolves to an empty map. -/
def emptySession : Session := { pages := 1, updateStats := .ok [] }

/-- A running state with one (empty-pull) session and a stale
participant/track point value from an earlier tick. -/
def ptStaleState : StatsState :=
  { exampleBase with
    sessions := [(0, emptySession)],
    collectedStats :=
      [("cpu", { CollectedStats.empty with byParticipantAndTrack := [("alice:t1", 5)] })] }

/-- A state carrying one alert-report record, to exercise report
preservation. -/
def reportedState : StatsState :=
  { exampleBase with
    alertRulesReport := [("cpu", [("p95 < 100", ReportValue.init)])] }

/-- A session whose metric pull rejects. -/
def errSession : Session := { pages := 1, updateStats := .error "boom" }

/-- A session whose pull yields `cpu = 5`. -/
def okSession5 : Session := { pages := 1, updateStats := .ok [("cpu", .num 5)] }

/-- A session whose pull yields `cpu = undefined` followed by `cpu = 5`. -/
def undefSession : Session :=
  { pages := 1, updateStats := .ok [("cpu", .undef), ("cpu", .num 5)] }

/-- Two sessions: the first pull rejects, the second would contribute 5. -/
def c1State : StatsState :=
  { exampleBase with sessions := [(0, errSession), (1, okSession5)] }

/-- Two sessions: the first pull contains an `undefined` metric value, the
second would contribute 5; one external entry is pending. -/
def c9State : StatsState :=
  { exampleBase with
    sessions := [(0, undefSession), (1, okSession5)],
    externalCollectedStats :=
      [("remote",
        { addedTime := 0,
          externalStats :=
            [("cpu", { all := [9], byHost := [], byCodec := [], byParticipantAndTrack := [] })],
          config := { pages := 2 } })] }

/-- The alert rule `{cpu: {tags: [...], p95: {$lt: 100}}}`. -/
def p95Lt100Rule : List (String × AlertRule) :=
  [("cpu", [AlertRuleEntry.tags ["performance"],
    AlertRuleEntry.check RuleKey.p95 (RuleValueSpec.one { lt := some 100 })])]

/-- A `cpu` distribution whose p95 is 150 (fails `$lt: 100`). -/
def failingCpuStats : List (String × CollectedStats) :=
  [("cpu", { CollectedStats.empty with all := ⟨[150]⟩ })]

/-- A `cpu` distribution whose p95 is 50 (passes `$lt: 100`). -/
def passingCpuStats : List (String × CollectedStats) :=
  [("cpu", { CollectedStats.empty with all := ⟨[50]⟩ })]

/-- The continuity-scenario state: rule `{p95: {$lt: 100}}`, failing
distribution, engine started at 0. -/
def c3State : StatsState :=
  { exampleBase with
    alertRules := some p95Lt100Rule,
    collectedStats := failingCpuStats }

/-- Three failing evaluations 10 s apart. -/
def c3Run3 : StatsState :=
  checkAlertRules (checkAlertRules (checkAlertRules c3State 10000) 20000) 30000

/-- Three evaluations 10 s apart whose middle one passes. -/
def c3RunMidPass : StatsState :=
  let st1 := checkAlertRules c3State 10000
  let st2 := checkAlertRules { st1 with collectedStats := passingCpuStats } 20000
  checkAlertRules { st2 with collectedStats := failingCpuStats } 30000

/-- The alert rule `{cpu: {p95: {$lt: 100, $after: 30}}}`. -/
def p95Lt100After30Rule : List (String × AlertRule) :=
  [("cpu", [AlertRuleEntry.check RuleKey.p95
    (RuleValueSpec.one { lt := some 100, after := some 30 })])]

/-- The `$after`-offset scenario state. -/
def c4State : StatsState :=
  { exampleBase with
    alertRules := some p95Lt100After30Rule,
    collectedStats := failingCpuStats }

/-- Two failing evaluations at 60 s and 70 s after engine start. -/
def c4Run2 : StatsState := checkAlertRules (checkAlertRules c4State 60000) 70000

/-- C5 counterexample: in a run started at time 1 with interval 1000 and
ticks at 3001 and 6001, each per-tick drift is clamped to the interval, yet
the accumulated `errorSum` reaches 2000, leaving the claimed range
`[-interval, +interval]`. -/
theorem scheduler_errorSum_exceeds_interval :
    schedulerDriftRun.errorSum = 2000 ∧ ¬(schedulerDriftRun.errorSum ≤ 1000) := by
  decide

/-- C5 (amended): on each tick the scheduler adds exactly
`clampMinMax (now - last - interval) (-interval) (interval)` to `errorSum`
(when running with `last` set, else nothing), so a single tick changes
`errorSum` by at most `interval` in absolute value; `errorSum` itself is
not clamped. -/
theorem scheduler_errorSum_step (interval now : Int) (s : SchedulerState)
    (h : 0 ≤ interval) :
    (Scheduler.scheduleNext interval now s).errorSum =
      s.errorSum +
        (if s.running = true ∧ s.last ≠ 0 then
          clampMinMax (now - s.last - interval) (-interval) interval
        else 0) ∧
    |(Scheduler.scheduleNext interval now s).errorSum - s.errorSum| ≤ interval := by
  unfold Scheduler.scheduleNext clampMinMax
  rcases hr : s.running with _ | _
  · simp [hr]
    omega
  · by_cases hl : s.last = 0
    · simp [hr, hl]
      omega
    · simp [hr, hl]
      have h1 : -interval ≤ (now - s.last - interval) ⊓ interval ⊔ -interval := le_max_right _ _
      have h2 : (now - s.last - interval) ⊓ interval ⊔ -interval ≤ interval :=
        max_le (min_le_right _ _) (by omega)
      exact abs_le.mpr ⟨h1, h2⟩

/-- C5 witness: applies `scheduler_errorSum_step` at interval 1000, now 3001,
state with `last = 1`. -/
theorem scheduler_errorSum_step_witness :
    (Scheduler.scheduleNext 1000 3001
        { running := true, last := 1, errorSum := 0, statsTimeoutId := none,
          pendingTimers := [], nextTimerId := 0 }).errorSum =
      (0 : Int) +
        (if (true : Bool) = true ∧ (1 : Int) ≠ 0 then
          clampMinMax (3001 - 1 - 1000) (-1000) 1000
        else 0) ∧
    |(Scheduler.scheduleNext 1000 3001
        { running := true, last := 1, errorSum := 0, statsTimeoutId := none,
          pendingTimers := [], nextTimerId := 0 }).errorSum - (0 : Int)| ≤ 1000 :=
  scheduler_errorSum_step 1000 3001
    { running := true, last := 1, errorSum := 0, statsTimeoutId := none,
      pendingTimers := [], nextTimerId := 0 } (by decide)

/-- C6 counterexample: calling `start` twice (same instant) from the fresh
state does not equal calling it once — the second call schedules an
additional timer without cancelling the first and accumulates drift. -/
theorem scheduler_start_not_idempotent :
    Scheduler.start 1000 5
        (Scheduler.start 1000 5
          { running := false, last := 0, errorSum := 0, statsTimeoutId := none,
            pendingTimers := [], nextTimerId := 0 }) ≠
      Scheduler.start 1000 5
        { running := false, last := 0, errorSum := 0, statsTimeoutId := none,
          pendingTimers := [], nextTimerId := 0 } := by
  decide

/-- C6 (amended): `stop` is idempotent on any state whose pending timers
are distinct (as produced by the scheduler, which allocates fresh ids):
calling `stop` twice cancels the pending timer and equals calling it
once.  `start` is not idempotent (see the counterexample). -/
theorem scheduler_stop_idempotent (s : SchedulerState)
    (h : s.pendingTimers.Nodup) :
    Scheduler.stop (Scheduler.stop s) = Scheduler.stop s := by
  unfold Scheduler.stop
  rcases ht : s.statsTimeoutId with _ | t
  · simp
  · simp only
    congr 1
    exact List.erase_of_not_mem h.not_mem_erase

/-- C8 counterexample: the per-metric standard-deviation column is named
`<metric>_stdev`, not `<metric>_stddev` as the claim states. -/
theorem formatStatsColumns_stdev_not_stddev :
    "cpu_stddev" ∉ formatStatsColumns "cpu" ∧ "cpu_stdev" ∈ formatStatsColumns "cpu" := by
  decide

/-- C8 (amended): for every metric name the CSV export columns are
`<metric>_length, _sum, _mean, _stdev, _5p, _95p, _min, _max` (in this
order, repeated per metric after the leading `datetime` column), and a
fresh writer writes the header line exactly once however many rows are
pushed: the resulting file is the header followed by exactly the data
rows. -/
theorem statsWriter_columns_and_header_once (w : StatsWriter)
    (rows : List (Int × List String))
    (hH : w.headerWritten = false) (hne : rows ≠ []) :
    (∀ m, formatStatsColumns m =
      [m ++ "_length", m ++ "_sum", m ++ "_mean", m ++ "_stdev",
        m ++ "_5p", m ++ "_95p", m ++ "_min", m ++ "_max"]) ∧
    (StatsWriter.pushAll w rows).fileLines =
      StatsWriter.headerLine w.columns :: rows.map (fun r => StatsWriter.dataLine r.1 r.2) := by
  refine ⟨fun m => rfl, ?_⟩
  rcases rows with _ | ⟨r, rest⟩
  · exact absurd rfl hne
  · have hstep : ∀ (rs : List (Int × List String)) (w' : StatsWriter),
        w'.headerWritten = true →
        (StatsWriter.pushAll w' rs).fileLines =
          w'.fileLines ++ rs.map (fun r => StatsWriter.dataLine r.1 r.2) := by
      intro rs
      induction rs with
      | nil => intro w' _; simp [StatsWriter.pushAll]
      | cons r' rest' ih =>
        intro w' hw'
        have hw'' : (w'.push r'.1 r'.2).headerWritten = true := by
          simp [StatsWriter.push, hw']
        have ih' := ih (w'.push r'.1 r'.2) hw''
        simp only [StatsWriter.pushAll, List.foldl_cons] at ih' ⊢
        rw [ih']
        simp [StatsWriter.push, hw']
    have hfirst : (w.push r.1 r.2).headerWritten = true := by
      simp [StatsWriter.push, hH]
    have hmain := hstep rest (w.push r.1 r.2) hfirst
    simp only [StatsWriter.pushAll, List.foldl_cons] at hmain ⊢
    rw [hmain]
    simp [StatsWriter.push, hH]

/-- C8 witness: applies `statsWriter_columns_and_header_once` to a fresh writer with
two pushed rows. -/
theorem statsWriter_columns_and_header_once_witness :
    (∀ m, formatStatsColumns m =
      [m ++ "_length", m ++ "_sum", m ++ "_mean", m ++ "_stdev",
        m ++ "_5p", m ++ "_95p", m ++ "_min", m ++ "_max"]) ∧
    (StatsWriter.pushAll
        { fname := "stats.log", columns := ["cpu_length"], headerWritten := false,
          fileLines := [] }
        [(1, ["1"]), (2, ["2"])]).fileLines =
      StatsWriter.headerLine ["cpu_length"] ::
        [((1 : Int), ["1"]), (2, ["2"])].map (fun r => StatsWriter.dataLine r.1 r.2) :=
  statsWriter_columns_and_header_once
    { fname := "stats.log", columns := ["cpu_length"], headerWritten := false,
      fileLines := [] }
    [(1, ["1"]), (2, ["2"])] rfl (by decide)

/-! ## Association list lemmas -/

theorem lookupA_setA_self {α : Type} (m : List (String × α)) (k : String) (v : α) :
    lookupA (setA m k v) k = some v := by
  induction m with
  | nil => simp [setA, lookupA]
  | cons p rest ih =>
    obtain ⟨k', v'⟩ := p
    by_cases h : k' = k
    · simp [setA, h, lookupA]
    · simp [setA, h, lookupA, ih]

theorem lookupA_setA_ne {α : Type} (m : List (String × α)) (k k₂ : String) (v : α)
    (h : k₂ ≠ k) : lookupA (setA m k v) k₂ = lookupA m k₂ := by
  have hne : k ≠ k₂ := fun hh => h hh.symm
  induction m with
  | nil => simp [setA, lookupA, hne]
  | cons p rest ih =>
    obtain ⟨k', v'⟩ := p
    by_cases hk : k' = k
    · subst hk
      simp [setA, lookupA, hne]
    · simp [setA, lookupA, hk, ih]

/-! ## Fixed-field preservation -/

/-- The `checkAlertRules` touches only `alertRulesReport`. -/
theorem checkAlertRules_fixed_fields (st : StatsState) (now : Int) :
    (checkAlertRules st now).statsInterval = st.statsInterval ∧
    (checkAlertRules st now).rtcStatsTimeout = st.rtcStatsTimeout := by
  unfold checkAlertRules
  cases st.alertRules with
  | none => exact ⟨rfl, rfl⟩
  | some rules =>
    by_cases h : st.running = false <;> simp [h]

/-- The `collectStats` never writes the `readonly` interval fields. -/
theorem collectStats_fixed_fields (st : StatsState) (now : Int) :
    (collectStats st now).1.statsInterval = st.statsInterval ∧
    (collectStats st now).1.rtcStatsTimeout = st.rtcStatsTimeout := by
  unfold collectStats
  split
  · exact ⟨rfl, rfl⟩
  · split
    · exact ⟨rfl, rfl⟩
    · dsimp only
      cases hsl : sessionLoop st.enableDetailedStats (resetCollectedStats st.collectedStats)
          { pages := 0, startTime := st.startTimestamp } st.sessions with
      | ok cs' cfg' =>
        dsimp only
        exact ⟨(checkAlertRules_fixed_fields _ now).1, (checkAlertRules_fixed_fields _ now).2⟩
      | undefAbort cs' cfg' => exact ⟨rfl, rfl⟩
      | errored cs' cfg' e => exact ⟨rfl, rfl⟩

/-- C10: for every constructed `Stats` instance the invariant
`rtcStatsTimeout ≥ statsInterval` is established by the constructor's
silent clamp `Math.max(rtcStatsTimeout, statsInterval)`, with
`statsInterval` defaulting to 10 when the given interval is 0 or unset,
and no collection tick ever changes either field. -/
theorem stats_rtcStatsTimeout_invariant
    (si : Option Int) (rt : Int) (ts : Option Int) (nowCtor : Int)
    (names : List String) (eds : Bool) (rules : Option (List (String × AlertRule)))
    (fp : Rat) :
    (StatsConstruct si rt ts nowCtor names eds rules fp).statsInterval ≤
      (StatsConstruct si rt ts nowCtor names eds rules fp).rtcStatsTimeout ∧
    ((si = none ∨ si = some 0) →
      (StatsConstruct si rt ts nowCtor names eds rules fp).statsInterval = 10) ∧
    (∀ (st : StatsState) (now : Int),
      (collectStats st now).1.statsInterval = st.statsInterval ∧
      (collectStats st now).1.rtcStatsTimeout = st.rtcStatsTimeout) := by
  refine ⟨le_max_right _ _, ?_, fun st now => collectStats_fixed_fields st now⟩
  rintro (h | h) <;> simp [StatsConstruct, h]

/-- C10 witness: applies `stats_rtcStatsTimeout_invariant` at a concrete
configuration with `statsInterval = 0`. -/
theorem stats_rtcStatsTimeout_invariant_witness :
    (StatsConstruct (some 0) 3 none 0 ["cpu"] false none 95).statsInterval ≤
      (StatsConstruct (some 0) 3 none 0 ["cpu"] false none 95).rtcStatsTimeout ∧
    ((some (0 : Int) = none ∨ some (0 : Int) = some 0) →
      (StatsConstruct (some 0) 3 none 0 ["cpu"] false none 95).statsInterval = 10) ∧
    (∀ (st : StatsState) (now : Int),
      (collectStats st now).1.statsInterval = st.statsInterval ∧
      (collectStats st now).1.rtcStatsTimeout = st.rtcStatsTimeout) :=
  stats_rtcStatsTimeout_invariant (some 0) 3 none 0 ["cpu"] false none 95

/-- C6 witness: applies `scheduler_stop_idempotent` at a concrete started state. -/
theorem scheduler_stop_idempotent_witness :
    Scheduler.stop (Scheduler.stop
        { running := true, last := 5, errorSum := 0, statsTimeoutId := some 0,
          pendingTimers := [0], nextTimerId := 1 }) =
      Scheduler.stop
        { running := true, last := 5, errorSum := 0, statsTimeoutId := some 0,
          pendingTimers := [0], nextTimerId := 1 } :=
  scheduler_stop_idempotent _ (by decide)

/-- A lookup over a key-preserving map transformation. -/
theorem lookupA_map {α β : Type} (m : List (String × α)) (g : α → β) (k : String) :
    lookupA (m.map (fun p => (p.1, g p.2))) k = (lookupA m k).map g := by
  induction m with
  | nil => simp [lookupA]
  | cons p rest ih =>
    obtain ⟨k', v'⟩ := p
    by_cases h : k' = k <;> simp [lookupA, h, ih]

/-- C7 counterexample: a running tick with no sessions and no external
entries returns `skipped` with the state untouched: the stale `cpu`
distribution `[7]` survives instead of being reset to empty, because the
skip check precedes the reset. -/
theorem collectStats_empty_tick_stale :
    collectStats staleEmptyTickState 10000 = (staleEmptyTickState, .skipped) ∧
    (lookupA (collectStats staleEmptyTickState 10000).1.collectedStats "cpu").map
      (fun s => s.all.data) = some [7] := by
  decide

/-- C7 (amended): the skip check precedes the reset: every running tick
with no active sessions and no pending external entries returns `skipped`
and leaves the whole state — including the per-metric distributions, which
may be stale — unchanged. -/
theorem collectStats_empty_tick_skips (st : StatsState) (now : Int)
    (hr : st.running = true) (hs : st.sessions = [])
    (he : st.externalCollectedStats = []) :
    collectStats st now = (st, .skipped) := by
  unfold collectStats
  simp [hr, hs, he]

/-- C7 witness: applies `collectStats_empty_tick_skips` to the empty running
state. -/
theorem collectStats_empty_tick_skips_witness :
    collectStats exampleBase 5 = (exampleBase, .skipped) :=
  collectStats_empty_tick_skips exampleBase 5 rfl rfl rfl

/-- C2 counterexample: a non-skipped tick clears `byParticipantAndTrack`
(the reset sets it to a fresh empty object), refuting that it is left
unchanged across ticks as cumulative run-state. -/
theorem collectStats_clears_byParticipantAndTrack :
    (lookupA ptStaleState.collectedStats "cpu").map
      (fun s => s.byParticipantAndTrack) = some [("alice:t1", 5)] ∧
    (lookupA (collectStats ptStaleState 0).1.collectedStats "cpu").map
      (fun s => s.byParticipantAndTrack) = some [] := by
  decide

theorem ReportGrows.rfl (m : ReportMap) : ReportGrows m m :=
  fun _ _ r h => ⟨r, h, le_refl _⟩

theorem ReportGrows.trans {a b c : ReportMap} (h1 : ReportGrows a b)
    (h2 : ReportGrows b c) : ReportGrows a c := by
  intro key desc r hr
  obtain ⟨r1, hr1, hle1⟩ := h1 key desc r hr
  obtain ⟨r2, hr2, hle2⟩ := h2 key desc r1 hr1
  exact ⟨r2, hr2, le_trans hle1 hle2⟩

theorem lookupRuleReport_eq (report : ReportMap) (key desc : String) :
    lookupRuleReport report key desc =
      (lookupA report key).bind (fun inner => lookupA inner desc) := by
  unfold lookupRuleReport
  cases lookupA report key <;> rfl

/-- Characterization of `updateRulesReport` at the updated pair: the record
exists afterwards; `totalFails` grows by 1 exactly on failure;
`totalFailsTime` grows by the continuity gap `(now - lastFailed)/1000`
exactly when the evaluation failed and the previous one had failed too;
`lastFailed` is stamped on failure and reset on a pass; the fail-time
percentage is recomputed against the `elapsedSeconds` argument. -/
theorem lookupRuleReport_update_self (report : ReportMap) (key : String) (cv : Rat)
    (desc : String) (failed : Bool) (fa : Rat) (now : Int) (es fp : Rat) :
    ∃ rv, lookupRuleReport (updateRulesReport report key cv desc failed fa now es fp)
        key desc = some rv ∧
      rv.totalFails = (reportValueBefore report key desc).totalFails +
        (if failed then 1 else 0) ∧
      rv.totalFailsTime = (reportValueBefore report key desc).totalFailsTime +
        (if failed = true ∧ (reportValueBefore report key desc).lastFailed ≠ 0 then
          ((now - (reportValueBefore report key desc).lastFailed : Int) : Rat) / 1000
        else 0) ∧
      rv.lastFailed = (if failed then now else 0) ∧
      rv.totalFailsTimePerc = jsRound (100 * rv.totalFailsTime / es) := by
  unfold updateRulesReport
  dsimp only
  have hlook : ∀ (rv : ReportValue) (inner : List (String × ReportValue)),
      lookupRuleReport (setA report key (setA inner desc rv)) key desc = some rv := by
    intro rv inner
    rw [lookupRuleReport_eq, lookupA_setA_self, Option.some_bind', lookupA_setA_self]
  refine ⟨_, hlook _ _, ?_, ?_, ?_, ?_⟩
  all_goals
    cases failed with
    | true =>
      by_cases hlf :
          ((lookupA ((lookupA report key).getD []) desc).getD ReportValue.init).lastFailed = 0 <;>
        simp [reportValueBefore, hlf]
    | false => simp [reportValueBefore]

/-- The `updateRulesReport` leaves every other (metric, rule) record
untouched. -/
theorem lookupRuleReport_update_other (report : ReportMap) (key : String) (cv : Rat)
    (desc : String) (failed : Bool) (fa : Rat) (now : Int) (es fp : Rat)
    (key' desc' : String) (h : key' ≠ key ∨ desc' ≠ desc) :
    lookupRuleReport (updateRulesReport report key cv desc failed fa now es fp)
      key' desc' = lookupRuleReport report key' desc' := by
  unfold updateRulesReport
  dsimp only
  rw [lookupRuleReport_eq, lookupRuleReport_eq]
  by_cases hk : key' = key
  · subst hk
    have hd : desc' ≠ desc := h.resolve_left (fun hh => hh rfl)
    rw [lookupA_setA_self, Option.some_bind']
    rw [lookupA_setA_ne _ _ _ _ hd]
    cases hin : lookupA report key' with
    | none => simp [hin, lookupA]
    | some inner => simp [hin]
  · rw [lookupA_setA_ne _ _ _ _ hk]

/-- The `updateRulesReport` never drops a record and never decreases
`totalFails`. -/
theorem updateRulesReport_grows (report : ReportMap) (key : String) (cv : Rat)
    (desc : String) (failed : Bool) (fa : Rat) (now : Int) (es fp : Rat) :
    ReportGrows report (updateRulesReport report key cv desc failed fa now es fp) := by
  intro key' desc' r hr
  by_cases hk : key' = key
  · subst hk
    by_cases hd : desc' = desc
    · subst hd
      obtain ⟨rv, hrv, hfails, _⟩ :=
        lookupRuleReport_update_self report key' cv desc' failed fa now es fp
      refine ⟨rv, hrv, ?_⟩
      have hold : reportValueBefore report key' desc' = r := by
        unfold reportValueBefore
        rw [lookupRuleReport_eq] at hr
        cases hin : lookupA report key' with
        | none => rw [hin] at hr; exact absurd hr (by simp)
        | some inner =>
          rw [hin] at hr
          rw [Option.some_bind'] at hr
          simp [hr]
      rw [hold] at hfails
      rw [hfails]
      cases failed <;> simp
    · have h1 := lookupRuleReport_update_other report key' cv desc failed fa now es fp
        key' desc' (Or.inr hd)
      exact ⟨r, h1 ▸ hr, le_refl _⟩
  · have h1 := lookupRuleReport_update_other report key cv desc failed fa now es fp
      key' desc' (Or.inl hk)
    exact ⟨r, h1 ▸ hr, le_refl _⟩

/-- Folding a growing step preserves `ReportGrows`. -/
theorem foldl_grows {β : Type} (f : ReportMap → β → ReportMap)
    (hf : ∀ report b, ReportGrows report (f report b)) :
    ∀ (l : List β) (report : ReportMap), ReportGrows report (l.foldl f report) := by
  intro l
  induction l with
  | nil => intro report; exact ReportGrows.rfl _
  | cons b rest ih =>
    intro report
    exact ReportGrows.trans (hf report b) (ih (f report b))

/-- The rule-value loop only grows the report. -/
theorem runRuleValues_grows (now : Int) (es : Rat) (key : String)
    (value : StatsData) (ruleKey : RuleKey) (fp : Rat) :
    ∀ (vs : List AlertRuleValue) (report : ReportMap) (res : Rat),
      ReportGrows report (runRuleValues now es key value ruleKey fp (report, res) vs).1 := by
  intro vs
  induction vs with
  | nil => intro report res; exact ReportGrows.rfl _
  | cons rv rest ih =>
    intro report res
    unfold runRuleValues
    split
    · exact ih report res
    · dsimp only
      split
      · exact ih report _
      · exact ReportGrows.trans (updateRulesReport_grows _ _ _ _ _ _ _ _ _) (ih _ _)

/-- The rule-entry loop only grows the report. -/
theorem runRuleEntries_grows (now : Int) (es : Rat) (key : String) (value : StatsData) :
    ∀ (entries : AlertRule) (report : ReportMap) (fp : Rat),
      ReportGrows report (runRuleEntries now es key value (report, fp) entries).1 := by
  intro entries
  induction entries with
  | nil => intro report fp; exact ReportGrows.rfl _
  | cons entry rest ih =>
    intro report fp
    unfold runRuleEntries
    cases entry with
    | tags ts => exact ih report fp
    | failPercentile p => exact ih report p
    | check rk vs =>
      dsimp only
      exact ReportGrows.trans (runRuleValues_grows now es key value rk fp vs.normalize report es)
        (ih _ fp)

/-- The `checkAlertRules` only grows the report. -/
theorem checkAlertRules_report_grows (st : StatsState) (now : Int) :
    ReportGrows st.alertRulesReport (checkAlertRules st now).alertRulesReport := by
  unfold checkAlertRules
  cases st.alertRules with
  | none => exact ReportGrows.rfl _
  | some rules =>
    by_cases h : st.running = false
    · simp only [h, if_true]
      exact ReportGrows.rfl _
    · simp only [h, if_false]
      unfold runAlertRules
      dsimp only
      apply foldl_grows
      intro report kr
      cases lookupA st.collectedStats kr.1 with
      | none => exact ReportGrows.rfl _
      | some collected =>
        exact runRuleEntries_grows now _ kr.1 _ kr.2 report st.alertRulesFailPercentile

/-- A collection tick only grows the report. -/
theorem collectStats_report_grows (st : StatsState) (now : Int) :
    ReportGrows st.alertRulesReport (collectStats st now).1.alertRulesReport := by
  unfold collectStats
  split
  · exact ReportGrows.rfl _
  · split
    · exact ReportGrows.rfl _
    · dsimp only
      cases hsl : sessionLoop st.enableDetailedStats (resetCollectedStats st.collectedStats)
          { pages := 0, startTime := st.startTimestamp } st.sessions with
      | ok cs' cfg' =>
        dsimp only
        exact checkAlertRules_report_grows
          ({ st with
            collectedStats :=
              (externalLoop st.statsNames st.rtcStatsTimeout now cs' cfg'
                st.externalCollectedStats).1,
            collectedStatsConfig :=
              (externalLoop st.statsNames st.rtcStatsTimeout now cs' cfg'
                st.externalCollectedStats).2.1,
            externalCollectedStats :=
              (externalLoop st.statsNames st.rtcStatsTimeout now cs' cfg'
                st.externalCollectedStats).2.2 } : StatsState) now
      | undefAbort cs' cfg' => exact ReportGrows.rfl _
      | errored cs' cfg' e => exact ReportGrows.rfl _

/-- C2 (amended): at the start of every non-skipped tick every catalog
metric's `all`, `byHost` and `byCodec` summaries are reset to empty (their
keys survive), while `byParticipantAndTrack` is also cleared — it is
per-tick state, not cumulative; only the alert-rule report state persists:
no tick ever drops a report record or decreases its `totalFails`. -/
theorem collectStats_reset_and_report_cumulative :
    (∀ (cs : List (String × CollectedStats)) (name : String) (stats : CollectedStats),
      lookupA cs name = some stats →
      lookupA (resetCollectedStats cs) name = some
        { all := FastStats.empty,
          byHost := stats.byHost.map (fun q => (q.1, FastStats.empty)),
          byCodec := stats.byCodec.map (fun q => (q.1, FastStats.empty)),
          byParticipantAndTrack := [] }) ∧
    (∀ (st : StatsState) (now : Int),
      ReportGrows st.alertRulesReport (collectStats st now).1.alertRulesReport) := by
  constructor
  · intro cs name stats h
    have h1 := lookupA_map cs (fun a : CollectedStats =>
      ({ all := a.all.reset,
         byHost := a.byHost.map (fun q => (q.1, q.2.reset)),
         byCodec := a.byCodec.map (fun q => (q.1, q.2.reset)),
         byParticipantAndTrack := [] } : CollectedStats)) name
    rw [h] at h1
    exact h1
  · exact collectStats_report_grows

/-- C2 witness: applies `collectStats_reset_and_report_cumulative` to the reset part
at a concrete map, and report preservation on a state carrying one
record. -/
theorem collectStats_reset_and_report_cumulative_witness :
    lookupA (resetCollectedStats ptStaleState.collectedStats) "cpu" = some
      { all := FastStats.empty, byHost := [], byCodec := [],
        byParticipantAndTrack := [] } ∧
    ∃ r', lookupRuleReport (collectStats reportedState 5).1.alertRulesReport
        "cpu" "p95 < 100" = some r' ∧ ReportValue.init.totalFails ≤ r'.totalFails := by
  constructor
  · exact collectStats_reset_and_report_cumulative.1 ptStaleState.collectedStats "cpu"
      ({ CollectedStats.empty with byParticipantAndTrack := [("alice:t1", 5)] } : CollectedStats)
      (by decide)
  · exact collectStats_reset_and_report_cumulative.2 reportedState 5 "cpu" "p95 < 100"
      ReportValue.init (by decide)

/-- A metric map without `undefined` values is folded in full, without the
early return. -/
theorem entriesLoop_clean (eds : Bool) (sid : Nat) :
    ∀ (ss : SessionStats) (cs : List (String × CollectedStats)),
      ss.all (fun p => decide (p.2 ≠ SessionStatValue.undef)) = true →
      ∃ cs', entriesLoop eds sid cs ss = .ok cs' := by
  intro ss
  induction ss with
  | nil => intro cs _; exact ⟨cs, Eq.refl _⟩
  | cons p rest ih =>
    intro cs hall
    obtain ⟨name, obj⟩ := p
    rw [List.all_cons, Bool.and_eq_true] at hall
    obtain ⟨h1, h2⟩ := hall
    have h1' : obj ≠ SessionStatValue.undef := of_decide_eq_true h1
    unfold entriesLoop
    cases obj with
    | undef => exact absurd rfl h1'
    | num v => exact ih (processMetric eds sid cs name (.num v)) h2
    | labeled es => exact ih (processMetric eds sid cs name (.labeled es)) h2

/-- The session loop stops at the first rejected pull, so the result does
not depend on the sessions after it. -/
theorem sessionLoop_stops_at_error (eds : Bool) (sid : Nat) (sErr : Session)
    (e : String) (he : sErr.updateStats = .error e)
    (pre post post' : List (Nat × Session)) :
    ∀ (cs : List (String × CollectedStats)) (cfg : CollectedStatsConfig),
      sessionLoop eds cs cfg (pre ++ (sid, sErr) :: post) =
        sessionLoop eds cs cfg (pre ++ (sid, sErr) :: post') := by
  induction pre with
  | nil =>
    intro cs cfg
    simp only [List.nil_append]
    unfold sessionLoop
    rw [he]
  | cons p rest ih =>
    intro cs cfg
    obtain ⟨psid, ps⟩ := p
    simp only [List.cons_append]
    unfold sessionLoop
    cases hps : ps.updateStats with
    | error e2 => rfl
    | ok ss =>
      dsimp only
      cases hel : entriesLoop eds psid cs ss with
      | error cs2 => rfl
      | ok cs2 => exact ih cs2 _

/-- When every earlier session's pull is clean, the loop reaches the
rejected pull and rethrows its error. -/
theorem sessionLoop_error_result (eds : Bool) (sid : Nat) (sErr : Session)
    (e : String) (he : sErr.updateStats = .error e) :
    ∀ (pre : List (Nat × Session)), (∀ p ∈ pre, cleanPull p.2 = true) →
    ∀ (post : List (Nat × Session)) (cs : List (String × CollectedStats))
      (cfg : CollectedStatsConfig),
      ∃ cs' cfg', sessionLoop eds cs cfg (pre ++ (sid, sErr) :: post) =
        .errored cs' cfg' e := by
  intro pre
  induction pre with
  | nil =>
    intro _ post cs cfg
    refine ⟨cs, { cfg with pages := cfg.pages + sErr.pages }, ?_⟩
    simp only [List.nil_append]
    unfold sessionLoop
    rw [he]
  | cons p rest ih =>
    intro hclean post cs cfg
    obtain ⟨psid, ps⟩ := p
    have hc : cleanPull ps = true := hclean (psid, ps) (List.mem_cons_self _ _)
    unfold cleanPull at hc
    simp only [List.cons_append]
    unfold sessionLoop
    cases hps : ps.updateStats with
    | error e2 => rw [hps] at hc; exact absurd hc (by simp)
    | ok ss =>
      rw [hps] at hc
      obtain ⟨cs2, hcs2⟩ := entriesLoop_clean eds psid ss cs hc
      dsimp only
      rw [hcs2]
      exact ih (fun q hq => hclean q (List.mem_cons_of_mem _ hq)) post cs2 _

/-- Evaluation of `collectStats` on a tick whose session loop rethrows. -/
theorem collectStats_eval_errored (st : StatsState) (now : Int)
    (cs' : List (String × CollectedStats)) (cfg' : CollectedStatsConfig) (e : String)
    (hr : st.running = true) (hne : st.sessions.isEmpty = false)
    (hsl : sessionLoop st.enableDetailedStats (resetCollectedStats st.collectedStats)
      { pages := 0, startTime := st.startTimestamp } st.sessions = .errored cs' cfg' e) :
    collectStats st now =
      ({ st with collectedStats := cs', collectedStatsConfig := cfg' }, .threw e) := by
  unfold collectStats
  rw [if_neg (by simp [hr])]
  rw [if_neg (by simp [hne])]
  dsimp only
  rw [hsl]

/-- C1 counterexample: with two sessions whose first pull rejects, the tick
rethrows the rejection: the failure is not caught per-session, the second
session's value 5 is never merged, and the tick does not complete (no
snapshot is emitted, no alert evaluation runs). -/
theorem collectStats_session_error_counterexample :
    (collectStats c1State 0).2 = .threw "boom" ∧
    (lookupA (collectStats c1State 0).1.collectedStats "cpu").map
      (fun s => s.all.data) = some [] := by
  decide

/-- C1 (amended): session pulls are awaited sequentially with no
per-session catch: a rejected `updateStats` propagates out of
`collectStats` and aborts the tick — the sessions after the failed one
contribute nothing (the resulting distributions do not depend on them),
the external entries are neither merged nor evicted, no alert evaluation
runs, and no snapshot is emitted.  Only errors raised while folding one
fetched metric are caught (and logged) individually. -/
theorem collectStats_session_error_aborts_tick (st : StatsState) (now : Int)
    (pre post : List (Nat × Session)) (sid : Nat) (s : Session) (e : String)
    (hr : st.running = true)
    (hs : st.sessions = pre ++ (sid, s) :: post)
    (hpre : ∀ p ∈ pre, cleanPull p.2 = true)
    (he : s.updateStats = .error e) :
    (collectStats st now).2 = .threw e ∧
    (collectStats st now).1.externalCollectedStats = st.externalCollectedStats ∧
    (collectStats st now).1.alertRulesReport = st.alertRulesReport ∧
    ∀ post',
      (collectStats { st with sessions := pre ++ (sid, s) :: post' } now).1.collectedStats =
        (collectStats st now).1.collectedStats := by
  have hne : (pre ++ (sid, s) :: post).isEmpty = false := by cases pre <;> rfl
  obtain ⟨cs', cfg', hsl⟩ := sessionLoop_error_result st.enableDetailedStats sid s e he pre hpre
    post (resetCollectedStats st.collectedStats)
    { pages := 0, startTime := st.startTimestamp }
  rw [← hs] at hsl
  have heval := collectStats_eval_errored st now cs' cfg' e hr (hs ▸ hne) hsl
  refine ⟨by rw [heval], by rw [heval], by rw [heval], ?_⟩
  intro post'
  have hne' : (pre ++ (sid, s) :: post').isEmpty = false := by cases pre <;> rfl
  obtain ⟨cs2, cfg2, hsl2⟩ := sessionLoop_error_result st.enableDetailedStats sid s e he pre hpre
    post' (resetCollectedStats st.collectedStats)
    { pages := 0, startTime := st.startTimestamp }
  have heval2 := collectStats_eval_errored
    { st with sessions := pre ++ (sid, s) :: post' } now cs2 cfg2 e hr hne' hsl2
  have htr := sessionLoop_stops_at_error st.enableDetailedStats sid s e he pre post post'
    (resetCollectedStats st.collectedStats) { pages := 0, startTime := st.startTimestamp }
  rw [hs] at hsl
  rw [hsl, hsl2] at htr
  injection htr with h1 h2 h3
  rw [heval, heval2]
  exact h1.symm

/-- C1 witness: applies `collectStats_session_error_aborts_tick` to a concrete
three-session state whose middle pull rejects. -/
theorem collectStats_session_error_aborts_tick_witness :
    (collectStats
      { exampleBase with sessions := [(7, okSession5), (0, errSession), (1, okSession5)] } 0).2 =
        .threw "boom" ∧
    (collectStats
      { exampleBase with sessions := [(7, okSession5), (0, errSession), (1, okSession5)] } 0).1.externalCollectedStats =
      ({ exampleBase with sessions := [(7, okSession5), (0, errSession), (1, okSession5)] } : StatsState).externalCollectedStats ∧
    (collectStats
      { exampleBase with sessions := [(7, okSession5), (0, errSession), (1, okSession5)] } 0).1.alertRulesReport =
      ({ exampleBase with sessions := [(7, okSession5), (0, errSession), (1, okSession5)] } : StatsState).alertRulesReport ∧
    ∀ post',
      (collectStats { ({ exampleBase with sessions := [(7, okSession5), (0, errSession), (1, okSession5)] } : StatsState) with
          sessions := [(7, okSession5)] ++ (0, errSession) :: post' } 0).1.collectedStats =
        (collectStats
          { exampleBase with sessions := [(7, okSession5), (0, errSession), (1, okSession5)] } 0).1.collectedStats :=
  collectStats_session_error_aborts_tick
    { exampleBase with sessions := [(7, okSession5), (0, errSession), (1, okSession5)] } 0
    [(7, okSession5)] [(1, okSession5)] 0 errSession "boom"
    rfl rfl (by decide) rfl

/-- The entries loop always takes the early return on a map containing an
`undefined` value. -/
theorem entriesLoop_undef_result (eds : Bool) (sid : Nat) (nm : String) :
    ∀ (epre epost : SessionStats) (cs : List (String × CollectedStats)),
      ∃ cs', entriesLoop eds sid cs (epre ++ (nm, SessionStatValue.undef) :: epost) =
        .error cs' := by
  intro epre
  induction epre with
  | nil =>
    intro epost cs
    exact ⟨cs, Eq.refl _⟩
  | cons p rest ih =>
    intro epost cs
    obtain ⟨name, obj⟩ := p
    simp only [List.cons_append]
    unfold entriesLoop
    cases obj with
    | undef => exact ⟨cs, Eq.refl _⟩
    | num v => exact ih epost (processMetric eds sid cs name (.num v))
    | labeled es => exact ih epost (processMetric eds sid cs name (.labeled es))

/-- The session loop stops inside the session whose map contains an
`undefined` value, so the result does not depend on later sessions. -/
theorem sessionLoop_stops_at_undef (eds : Bool) (sid : Nat) (s : Session)
    (epre epost : SessionStats) (nm : String)
    (hup : s.updateStats = .ok (epre ++ (nm, SessionStatValue.undef) :: epost))
    (pre post post' : List (Nat × Session)) :
    ∀ (cs : List (String × CollectedStats)) (cfg : CollectedStatsConfig),
      sessionLoop eds cs cfg (pre ++ (sid, s) :: post) =
        sessionLoop eds cs cfg (pre ++ (sid, s) :: post') := by
  induction pre with
  | nil =>
    intro cs cfg
    simp only [List.nil_append]
    unfold sessionLoop
    rw [hup]
    dsimp only
    obtain ⟨cs', hcs'⟩ := entriesLoop_undef_result eds sid nm epre epost cs
    rw [hcs']
  | cons p rest ih =>
    intro cs cfg
    obtain ⟨psid, ps⟩ := p
    simp only [List.cons_append]
    unfold sessionLoop
    cases hps : ps.updateStats with
    | error e2 => rfl
    | ok ss =>
      dsimp only
      cases hel : entriesLoop eds psid cs ss with
      | error cs2 => rfl
      | ok cs2 => exact ih cs2 _

/-- When every earlier session's pull is clean, the loop reaches the
session carrying the `undefined` value and takes the early return. -/
theorem sessionLoop_undef_result (eds : Bool) (sid : Nat) (s : Session)
    (epre epost : SessionStats) (nm : String)
    (hup : s.updateStats = .ok (epre ++ (nm, SessionStatValue.undef) :: epost)) :
    ∀ (pre : List (Nat × Session)), (∀ p ∈ pre, cleanPull p.2 = true) →
    ∀ (post : List (Nat × Session)) (cs : List (String × CollectedStats))
      (cfg : CollectedStatsConfig),
      ∃ cs' cfg', sessionLoop eds cs cfg (pre ++ (sid, s) :: post) =
        .undefAbort cs' cfg' := by
  intro pre
  induction pre with
  | nil =>
    intro _ post cs cfg
    obtain ⟨cs', hcs'⟩ := entriesLoop_undef_result eds sid nm epre epost cs
    refine ⟨cs', { cfg with pages := cfg.pages + s.pages }, ?_⟩
    simp only [List.nil_append]
    unfold sessionLoop
    rw [hup]
    dsimp only
    rw [hcs']
  | cons p rest ih =>
    intro hclean post cs cfg
    obtain ⟨psid, ps⟩ := p
    have hc : cleanPull ps = true := hclean (psid, ps) (List.mem_cons_self _ _)
    unfold cleanPull at hc
    simp only [List.cons_append]
    unfold sessionLoop
    cases hps : ps.updateStats with
    | error e2 => rw [hps] at hc; exact absurd hc (by simp)
    | ok ss =>
      rw [hps] at hc
      obtain ⟨cs2, hcs2⟩ := entriesLoop_clean eds psid ss cs hc
      dsimp only
      rw [hcs2]
      exact ih (fun q hq => hclean q (List.mem_cons_of_mem _ hq)) post cs2 _

/-- Evaluation of `collectStats` on a tick whose session loop takes the
`undefined` early return. -/
theorem collectStats_eval_undefAbort (st : StatsState) (now : Int)
    (cs' : List (String × CollectedStats)) (cfg' : CollectedStatsConfig)
    (hr : st.running = true) (hne : st.sessions.isEmpty = false)
    (hsl : sessionLoop st.enableDetailedStats (resetCollectedStats st.collectedStats)
      { pages := 0, startTime := st.startTimestamp } st.sessions = .undefAbort cs' cfg') :
    collectStats st now =
      ({ st with collectedStats := cs', collectedStatsConfig := cfg' }, .undefinedAbort) := by
  unfold collectStats
  rw [if_neg (by simp [hr])]
  rw [if_neg (by simp [hne])]
  dsimp only
  rw [hsl]

/-- C9: if a session's metric map contains an entry whose value is
`undefined`, `collectStats` returns from the middle of the session loop:
the tick outcome is the bare return, the sessions after the failed one
contribute nothing (the resulting distributions do not depend on them),
the external entries are neither merged nor evicted, no alert evaluation
runs, and no snapshot is emitted (so no console output, CSV/detailed write
or Prometheus push happens this tick). -/
theorem collectStats_undefined_returns_early (st : StatsState) (now : Int)
    (pre post : List (Nat × Session)) (sid : Nat) (s : Session)
    (epre epost : SessionStats) (nm : String)
    (hr : st.running = true)
    (hs : st.sessions = pre ++ (sid, s) :: post)
    (hpre : ∀ p ∈ pre, cleanPull p.2 = true)
    (hup : s.updateStats = .ok (epre ++ (nm, SessionStatValue.undef) :: epost)) :
    (collectStats st now).2 = .undefinedAbort ∧
    (collectStats st now).1.externalCollectedStats = st.externalCollectedStats ∧
    (collectStats st now).1.alertRulesReport = st.alertRulesReport ∧
    ∀ post',
      (collectStats { st with sessions := pre ++ (sid, s) :: post' } now).1.collectedStats =
        (collectStats st now).1.collectedStats := by
  have hne : (pre ++ (sid, s) :: post).isEmpty = false := by cases pre <;> rfl
  obtain ⟨cs', cfg', hsl⟩ := sessionLoop_undef_result st.enableDetailedStats sid s epre epost nm
    hup pre hpre post (resetCollectedStats st.collectedStats)
    { pages := 0, startTime := st.startTimestamp }
  rw [← hs] at hsl
  have heval := collectStats_eval_undefAbort st now cs' cfg' hr (hs ▸ hne) hsl
  refine ⟨by rw [heval], by rw [heval], by rw [heval], ?_⟩
  intro post'
  have hne' : (pre ++ (sid, s) :: post').isEmpty = false := by cases pre <;> rfl
  obtain ⟨cs2, cfg2, hsl2⟩ := sessionLoop_undef_result st.enableDetailedStats sid s epre epost nm
    hup pre hpre post' (resetCollectedStats st.collectedStats)
    { pages := 0, startTime := st.startTimestamp }
  have heval2 := collectStats_eval_undefAbort
    { st with sessions := pre ++ (sid, s) :: post' } now cs2 cfg2 hr hne' hsl2
  have htr := sessionLoop_stops_at_undef st.enableDetailedStats sid s epre epost nm hup
    pre post post' (resetCollectedStats st.collectedStats)
    { pages := 0, startTime := st.startTimestamp }
  rw [hs] at hsl
  rw [hsl, hsl2] at htr
  injection htr with h1 h2
  rw [heval, heval2]
  exact h1.symm

/-- C9 witness: applies `collectStats_undefined_returns_early` to the concrete
two-session state whose first map carries an `undefined` entry. -/
theorem collectStats_undefined_returns_early_witness :
    (collectStats c9State 0).2 = .undefinedAbort ∧
    (collectStats c9State 0).1.externalCollectedStats = c9State.externalCollectedStats ∧
    (collectStats c9State 0).1.alertRulesReport = c9State.alertRulesReport ∧
    ∀ post',
      (collectStats { c9State with sessions := [] ++ (0, undefSession) :: post' } 0).1.collectedStats =
        (collectStats c9State 0).1.collectedStats :=
  collectStats_undefined_returns_early c9State 0 [] [(1, okSession5)] 0 undefSession
    [] [("cpu", SessionStatValue.num 5)] "cpu" rfl rfl (by decide) rfl

/-- C3: a failed evaluation increments `totalFails` by exactly 1 and adds
`(now - lastFailed)/1000` to `totalFailsTime` exactly when the immediately
preceding evaluation of the same (metric, rule description) also failed
(`lastFailed ≠ 0`), then stamps `lastFailed := now`; a passing evaluation
leaves both totals unchanged and resets `lastFailed` to 0.  Three failing
ticks 10 s apart yield `totalFails = 3` and `totalFailsTime = 20`; if the
middle tick passes instead, `totalFails = 2` and `totalFailsTime = 0`. -/
theorem updateRulesReport_continuity :
    (∀ (report : ReportMap) (key : String) (cv : Rat) (desc : String) (fa : Rat)
        (now : Int) (es fp : Rat),
      ∃ rv, lookupRuleReport (updateRulesReport report key cv desc true fa now es fp)
          key desc = some rv ∧
        rv.totalFails = (reportValueBefore report key desc).totalFails + 1 ∧
        rv.totalFailsTime = (reportValueBefore report key desc).totalFailsTime +
          (if (reportValueBefore report key desc).lastFailed ≠ 0 then
            ((now - (reportValueBefore report key desc).lastFailed : Int) : Rat) / 1000
          else 0) ∧
        rv.lastFailed = now) ∧
    (∀ (report : ReportMap) (key : String) (cv : Rat) (desc : String) (fa : Rat)
        (now : Int) (es fp : Rat),
      ∃ rv, lookupRuleReport (updateRulesReport report key cv desc false fa now es fp)
          key desc = some rv ∧
        rv.totalFails = (reportValueBefore report key desc).totalFails ∧
        rv.totalFailsTime = (reportValueBefore report key desc).totalFailsTime ∧
        rv.lastFailed = 0) ∧
    ((lookupRuleReport c3Run3.alertRulesReport "cpu" "p95 < 100").map
      (fun r => (r.totalFails, r.totalFailsTime)) = some (3, 20)) ∧
    ((lookupRuleReport c3RunMidPass.alertRulesReport "cpu" "p95 < 100").map
      (fun r => (r.totalFails, r.totalFailsTime)) = some (2, 0)) := by
  refine ⟨?_, ?_, by decide, by decide⟩
  · intro report key cv desc fa now es fp
    obtain ⟨rv, h0, h1, h2, h3, _⟩ :=
      lookupRuleReport_update_self report key cv desc true fa now es fp
    refine ⟨rv, h0, by simpa using h1, by simpa using h2, by simpa using h3⟩
  · intro report key cv desc fa now es fp
    obtain ⟨rv, h0, h1, h2, h3, _⟩ :=
      lookupRuleReport_update_self report key cv desc false fa now es fp
    refine ⟨rv, h0, by simpa using h1, by simpa using h2, by simpa using h3⟩

/-- C4 counterexample: with the rule `{p95: {$lt: 100, $after: 30}}`
failing at 60 s and at 70 s, the report holds `totalFailsTime = 10` and
`totalFailsTimePercent = 25 = round(100·10/40)` — computed against the
per-rule `ruleElapsedSeconds = 70 - 30` — while the claimed
`round(100·totalFailsTime/elapsedSeconds) = round(100·10/70)` is 14. -/
theorem totalFailsTimePerc_counterexample :
    (lookupRuleReport c4Run2.alertRulesReport "cpu" "p95 < 100 after 30s").map
      (fun r => (r.totalFailsTime, r.totalFailsTimePerc)) = some (10, 25) ∧
    jsRound (100 * 10 / 70) = 14 ∧ (25 : Int) ≠ 14 := by
  decide

/-- C4 (amended): after every alert-rule evaluation,
`totalFailsTimePercent = round(100 · totalFailsTime / e)` where `e` is the
elapsed-seconds value handed to the report update; in `checkAlertRules`
that value is the engine elapsed time reduced by the accumulated `$after`
offsets of the applicable rule values of the same check key — not the
engine-wide elapsed time.  The concrete run shows the divisor
`70 - 30` s. -/
theorem totalFailsTimePerc_of_elapsed_argument :
    (∀ (report : ReportMap) (key : String) (cv : Rat) (desc : String) (failed : Bool)
        (fa : Rat) (now : Int) (es fp : Rat),
      ∃ rv, lookupRuleReport (updateRulesReport report key cv desc failed fa now es fp)
          key desc = some rv ∧
        rv.totalFailsTimePerc = jsRound (100 * rv.totalFailsTime / es)) ∧
    ((lookupRuleReport c4Run2.alertRulesReport "cpu" "p95 < 100 after 30s").map
      (fun r => r.totalFailsTimePerc) =
      some (jsRound (100 * 10 / (((70000 - 0 : Int) : Rat) / 1000 - 30)))) := by
  refine ⟨?_, by decide⟩
  intro report key cv desc failed fa now es fp
  obtain ⟨rv, h0, _, _, _, h4⟩ :=
    lookupRuleReport_update_self report key cv desc failed fa now es fp
  exact ⟨rv, h0, h4⟩

end Webrtcperf
